import Mathlib

/-!
# Case study generator: job lifecycle

A shallow embedding of `main.go` and `ai.go`: the job map `studies`, the
worker `ProcessPrompt`, the collaborators it calls (`GetSummary`,
`generateSlides`) and the HTTP handlers that read or write the job map.

Calls that leave the program (the chat completion client, `json.Unmarshal`,
`fmt.Errorf` applied to a dynamic format string, the embedded files,
`os.MkdirTemp`, the chromium process, `os.ReadFile`) are fields of `Env`:
every theorem quantifies over all of them.
-/

namespace CaseStudyGen

/-! ## Data model (`main.go` 36-51, `ai.go` 97-113) -/

/-- The type `StudyStatus` with its three constants, in `iota` order. -/
inductive StudyStatus where
  | StudyStatusPending
  | StudyStatusComplete
  | StudyStatusFailed
  deriving DecidableEq, Repr

open StudyStatus

/-- The struct `CaseStudy`. -/
structure CaseStudy where
  Title : String
  CompanyAName : String
  CompanyASummary : String
  CompanyBName : String
  CompanyBSummary : String
  Context : List String
  Approach : List String
  Impact : List String
  deriving DecidableEq, Repr

/-- The zero value `CaseStudy{}`. -/
def CaseStudy.zero : CaseStudy := ⟨"", "", "", "", "", [], [], []⟩

/-- The struct `Response`. -/
structure Response where
  CaseStudy : CaseStudy
  deriving DecidableEq, Repr

/-- The struct `ErrorResponse`. -/
structure ErrorResponse where
  Error : String
  deriving DecidableEq, Repr

/-- The struct `StudyRequest`. A Go `error` is `none` for `nil` and
`some msg` for an error whose message is `msg`; the pointer `study` is
`none` for `nil`. -/
structure StudyRequest where
  study : Option CaseStudy
  status : StudyStatus
  file : String
  err : Option String
  deriving DecidableEq, Repr

/-- The job map `studies : map[string]*StudyRequest`, as an association list.
Every pointer stored in the map is freshly allocated by the POST handler, so no
two keys alias and the pointee is stored by value. -/
abbrev Studies := List (String × StudyRequest)

/-- The map read `studies[id]` with its `ok` flag. -/
def Studies.get (m : Studies) (id : String) : Option StudyRequest :=
  match m with
  | [] => none
  | (k, r) :: rest => if k = id then some r else Studies.get rest id

/-- The map write `studies[id] = r`: replaces the entry under `id` or adds one. -/
def Studies.put (m : Studies) (id : String) (r : StudyRequest) : Studies :=
  (id, r) :: m.filter (fun e => e.1 != id)

/-- The number of keys, `len(studies)`. -/
def Studies.size (m : Studies) : Nat := m.length

/-- The map built by `make(map[string]*StudyRequest)` in `main`. -/
def Studies.empty : Studies := []

/-! ## Collaborators -/

/-- What `client.CreateChatCompletion` returns: the `Message.Content` of each
element of `resp.Choices`, and `err`. -/
structure ChatResult where
  choices : List String
  err : Option String
  deriving DecidableEq, Repr

/-- The world outside the two source files. -/
structure Env where
  /-- The call `client.CreateChatCompletion` on the user prompt. -/
  createChatCompletion : String → ChatResult
  /-- The call `json.Unmarshal(content, &caseStudy)`: `none` when it returns an error. -/
  unmarshalResponse : String → Option Response
  /-- The call `json.Unmarshal(content, &errorResponse)`: `none` when it returns an error. -/
  unmarshalErrorResponse : String → Option ErrorResponse
  /-- The message of `fmt.Errorf(format)` for a format string that is not a constant. -/
  errorf : String → String
  /-- The content of the embedded `page.html`. -/
  page : String
  /-- The call `os.MkdirTemp("", "slides")`: the directory, or the error message. -/
  mkdirTemp : Except String String
  /-- The chromium run in a directory holding the given `slides.html`: `err` of `cmd.Run()`. -/
  runChromium : String → String → Option String

/-- A Go call that either returns or panics with a message. -/
inductive GoResult (α : Type) where
  | ret : α → GoResult α
  | panicked : String → GoResult α
  deriving Repr

/-! ## `ai.go` -/

/-- The function `GetSummary`. The byte length `len(prompt)` is `utf8ByteSize`;
indexing `resp.Choices[0]` panics on an empty slice. -/
def GetSummary (env : Env) (prompt : String) : GoResult (CaseStudy × Option String) :=
  if prompt.utf8ByteSize < 8 then
    .ret (CaseStudy.zero, some "Prompt is too short, please provide more information")
  else
    let resp := env.createChatCompletion prompt
    match resp.err with
    | some _ => .ret (CaseStudy.zero, some "Failed to connect to AI model")
    | none =>
      match resp.choices with
      | [] => .panicked "runtime error: index out of range [0] with length 0"
      | content :: _ =>
        match env.unmarshalResponse content with
        | some caseStudy => .ret (caseStudy.CaseStudy, none)
        | none =>
          match env.unmarshalErrorResponse content with
          | none => .ret (CaseStudy.zero, some "Invalid AI response, try again?")
          | some errorResponse => .ret (CaseStudy.zero, some (env.errorf errorResponse.Error))

/-- The function `escape`. -/
def escape (s : String) : String := s

/-- One of the three loops of `generateSlides` (lines 176-179, 182-185, 188-191):
starting from the empty string, append `"<li>" + escape(c) + "</li>\n"` for each item. -/
def listItems (items : List String) : String :=
  items.foldl (fun acc c => acc ++ ("<li>" ++ escape c ++ "</li>\n")) ""

/-- The text `tex` that `generateSlides` builds (lines 167-192); `strings.ReplaceAll`
is `String.replace`. -/
def slidesHtml (page : String) (caseStudy : CaseStudy) : String :=
  let tex := page
  let tex := tex.replace "@@TITLE@@" (escape caseStudy.Title)
  let tex := tex.replace "@@AUTHOR@@" "AI"
  let tex := tex.replace "@@COMPANYA@@" (escape caseStudy.CompanyAName)
  let tex := tex.replace "@@COMPANYADESC@@" (escape caseStudy.CompanyASummary)
  let tex := tex.replace "@@COMPANYB@@" (escape caseStudy.CompanyBName)
  let tex := tex.replace "@@COMPANYBDESC@@" (escape caseStudy.CompanyBSummary)
  let context := listItems caseStudy.Context
  let tex := tex.replace "@@CONTEXT@@" context
  let approach := listItems caseStudy.Approach
  let tex := tex.replace "@@APPROACH@@" approach
  let impact := listItems caseStudy.Impact
  let tex := tex.replace "@@IMPACT@@" impact
  tex

/-- The function `generateSlides`: the pair `(string, error)` it returns. -/
def generateSlides (env : Env) (caseStudy : CaseStudy) : String × Option String :=
  let tex := slidesHtml env.page caseStudy
  match env.mkdirTemp with
  | .error err => ("", some err)
  | .ok dir =>
    match env.runChromium dir tex with
    | some err => ("", some err)
    | none => (dir ++ "/output.pdf", none)

/-! ## `main.go`: the worker -/

/-- A single field assignment `studies[id].f = v` of `ProcessPrompt`. -/
inductive Write where
  | study : CaseStudy → Write
  | status : StudyStatus → Write
  | file : String → Write
  | err : String → Write
  deriving DecidableEq, Repr

/-- The effect of a field assignment on the record it reaches. -/
def Write.apply (w : Write) (r : StudyRequest) : StudyRequest :=
  match w with
  | .study c => ⟨some c, r.status, r.file, r.err⟩
  | .status s => ⟨r.study, s, r.file, r.err⟩
  | .file f => ⟨r.study, r.status, f, r.err⟩
  | .err e => ⟨r.study, r.status, r.file, some e⟩

/-- The record under `id` is replaced by `f` of it; other entries are untouched. -/
def Studies.modify (m : Studies) (id : String) (f : StudyRequest → StudyRequest) : Studies :=
  match m with
  | [] => []
  | (k, r) :: rest =>
    if k = id then (k, f r) :: Studies.modify rest id f else (k, r) :: Studies.modify rest id f

/-- The state the worker leaves and whether it panicked. A panic in a goroutine
ends the process. -/
structure Run where
  studies : Studies
  panic : Option String
  deriving Repr

/-- The statement `studies[id].f = v`: a nil pointer dereference when `id` is
not in the map. -/
def writeField (m : Studies) (id : String) (w : Write) : GoResult Studies :=
  match m.get id with
  | none => .panicked "runtime error: invalid memory address or nil pointer dereference"
  | some _ => .ret (m.modify id w.apply)

/-- A sequence of field assignments, in program order. -/
def execWrites (m : Studies) (id : String) : List Write → Run
  | [] => ⟨m, none⟩
  | w :: ws =>
    match writeField m id w with
    | .panicked p => ⟨m, some p⟩
    | .ret m1 => execWrites m1 id ws

/-- Every state of the job map a reader can see while the field assignments run:
the state before the first one, then the state after each one. -/
def traceWrites (m : Studies) (id : String) : List Write → List Studies
  | [] => [m]
  | w :: ws =>
    match writeField m id w with
    | .panicked _ => [m]
    | .ret m1 => m :: traceWrites m1 id ws

/-- The field assignments `ProcessPrompt` performs, per branch, in source order
(lines 56-57, 64-65, 69-71), or the panic raised inside `GetSummary`. -/
def ProcessPromptWrites (env : Env) (prompt : String) : GoResult (List Write) :=
  match GetSummary env prompt with
  | .panicked p => .panicked p
  | .ret (_, some err) => .ret [.err err, .status StudyStatusFailed]
  | .ret (study, none) =>
    match generateSlides env study with
    | (_, some _) => .ret [.err "Failed to generate slides", .status StudyStatusFailed]
    | (output, none) => .ret [.study study, .status StudyStatusComplete, .file output]

/-- The function `ProcessPrompt`, run to its end on the job map `studies`. -/
def ProcessPrompt (env : Env) (id : String) (prompt : String) (studies : Studies) : Run :=
  match ProcessPromptWrites env prompt with
  | .panicked p => ⟨studies, some p⟩
  | .ret ws => execWrites studies id ws

/-- The states of the job map during `ProcessPrompt`, one per field assignment. -/
def ProcessPromptTrace (env : Env) (id : String) (prompt : String) (studies : Studies) :
    List Studies :=
  match ProcessPromptWrites env prompt with
  | .panicked _ => [studies]
  | .ret ws => traceWrites studies id ws

/-! ## `main.go`: the handlers -/

/-- What the POST handler does: the job map after it, the goroutine it starts,
the redirect and the page. -/
structure PostResult where
  studies : Studies
  spawned : String × String
  redirect : String
  html : String
  deriving Repr

/-- The handler of `POST /` (lines 125-137); `id` is `uuid.New().String()`. -/
def postHandler (studies : Studies) (id : String) (form : String) : PostResult :=
  ⟨studies.put id ⟨none, StudyStatusPending, "", none⟩, (id, form), "/study/" ++ id, "loading"⟩

/-- The handler of `GET /study/{id}.pdf` (lines 139-154); `readFile` is `os.ReadFile`. -/
def pdfHandler (readFile : String → Option (List UInt8)) (studies : Studies) (id : String) :
    List UInt8 :=
  match studies.get id with
  | none => []
  | some study =>
    match readFile study.file with
    | none => []
    | some b => b

/-- The handler of `GET /study/{id}/status` (lines 156-166); `http.StatusOK` is 200. -/
def statusHandler (studies : Studies) (id : String) : Nat × String :=
  match studies.get id with
  | none => (200, "Not found")
  | some status =>
    if status.status = StudyStatusComplete then (200, "OK")
    else (200, "Not ready")

/-- The struct `Flash`. -/
structure Flash where
  Success : String
  Error : String
  deriving DecidableEq, Repr

/-- What the page handler sends: the template data entry `id`, the flash it
sets, the redirect and the rendered template. -/
structure PageResponse where
  dataId : String
  flash : Option Flash
  redirect : Option String
  html : Option String
  deriving DecidableEq, Repr

/-- The handler of `GET /study/{id}` (lines 168-195). -/
def studyHandler (studies : Studies) (id : String) : PageResponse :=
  match studies.get id with
  | none => ⟨id, some ⟨"", "Study not found"⟩, some "/", none⟩
  | some status =>
    match status.status with
    | StudyStatusPending => ⟨id, none, none, some "loading"⟩
    | StudyStatusComplete => ⟨id, none, none, some "summary"⟩
    | StudyStatusFailed => ⟨id, some ⟨"", "Study not found"⟩, some "/", none⟩

/-! ## The running server -/

/-- The job map together with the goroutines started by `go ProcessPrompt(id, form.Prompt)`
that have not run yet. -/
structure Sys where
  studies : Studies
  tasks : List (String × String)
  deriving Repr

/-- The state after `main` has made the map. -/
def Sys.init : Sys := ⟨Studies.empty, []⟩

/-- One step of the server: a submission under an id not yet in the map, or the
run to completion of one started goroutine, for some behaviour of the outside
world. A run that panics ends the process and has no next state. -/
inductive Step : Sys → Sys → Prop where
  | submit (s : Sys) (id form : String) (hnew : s.studies.get id = none) :
      Step s ⟨(postHandler s.studies id form).studies, (postHandler s.studies id form).spawned :: s.tasks⟩
  | run (s : Sys) (env : Env) (id prompt : String) (hmem : (id, prompt) ∈ s.tasks)
      (hok : (ProcessPrompt env id prompt s.studies).panic = none) :
      Step s ⟨(ProcessPrompt env id prompt s.studies).studies, s.tasks.erase (id, prompt)⟩

/-- The states the server reaches from `Sys.init`. -/
inductive Reachable : Sys → Prop where
  | init : Reachable Sys.init
  | step (s t : Sys) : Reachable s → Step s t → Reachable t

/-- The state `t` is `s` or comes after it. -/
def Later (s t : Sys) : Prop := Relation.ReflTransGen Step s t

/-- The record invariant of the data model: nothing set while pending, exactly
the result set when complete, exactly the error set when failed. -/
def Consistent (r : StudyRequest) : Prop :=
  match r.status with
  | StudyStatusPending => r.study = none ∧ r.file = "" ∧ r.err = none
  | StudyStatusComplete => r.study ≠ none ∧ r.file ≠ "" ∧ r.err = none
  | StudyStatusFailed => r.err ≠ none ∧ r.study = none ∧ r.file = ""

instance (r : StudyRequest) : Decidable (Consistent r) := by
  unfold Consistent; cases r.status <;> exact inferInstance

/-- A reader sees a torn record: complete without its file, or pending with an error. -/
def Torn (r : StudyRequest) : Prop :=
  (r.status = StudyStatusComplete ∧ r.file = "") ∨ (r.status = StudyStatusPending ∧ r.err ≠ none)

instance (r : StudyRequest) : Decidable (Torn r) := by
  unfold Torn; exact inferInstance

/-- The record left by a sequence of field assignments. -/
def applyWrites (ws : List Write) (r : StudyRequest) : StudyRequest :=
  ws.foldl (fun acc w => w.apply acc) r

/-- The invariant of the running server: every record is consistent, every
goroutine not yet run has its record in the map with status pending, and no two
such goroutines work on the same id. -/
def Inv (s : Sys) : Prop :=
  (∀ id r, s.studies.get id = some r → Consistent r) ∧
  (∀ t ∈ s.tasks, ∃ r, s.studies.get t.1 = some r ∧ r.status = StudyStatusPending) ∧
  (s.tasks.map Prod.fst).Nodup

/-- Which of the four cases a query for `id` is in: `none` when the id is not
in the map, else the status of the job. -/
def jobCase (m : Studies) (id : String) : Option StudyStatus :=
  (m.get id).map (fun r => r.status)

/-! ## Concrete inputs -/

/-- A request of the spec's scenario. -/
def samplePrompt : String := "Acme Corp wants to reduce logistics cost"

/-- A document as the model returns it. -/
def sampleStudy : CaseStudy :=
  ⟨"Logistics Optimization at Acme Corp", "Acme", "A maker", "Bolt", "A carrier",
    ["c1", "c2"], ["a1"], []⟩

/-- A record as the POST handler inserts it. -/
def pendingRecord : StudyRequest := ⟨none, StudyStatusPending, "", none⟩

/-- A world in which the model answers with one choice that parses and chromium succeeds. -/
def envOk : Env :=
  ⟨fun _ => ⟨["json"], none⟩, fun _ => some ⟨sampleStudy⟩, fun _ => none, fun f => f, "",
    .ok "/tmp/slides1", fun _ _ => none⟩

/-- A world in which the model call returns no error and a response with zero choices. -/
def envNoChoices : Env :=
  ⟨fun _ => ⟨[], none⟩, fun _ => none, fun _ => none, fun f => f, "",
    .ok "/tmp/slides1", fun _ _ => none⟩

/-- A world in which the model call fails with the message `rate limited`. -/
def envChatFails : Env :=
  ⟨fun _ => ⟨[], some "rate limited"⟩, fun _ => none, fun _ => none, fun f => f, "",
    .ok "/tmp/slides1", fun _ _ => none⟩

/-- A world in which the model answers and chromium fails with the message `rate limited`. -/
def envRenderFails : Env :=
  ⟨fun _ => ⟨["json"], none⟩, fun _ => some ⟨sampleStudy⟩, fun _ => none, fun f => f, "",
    .ok "/tmp/slides1", fun _ _ => some "rate limited"⟩

/-- A world in which the model answers with an error object carrying `rate limited`. -/
def envModelError : Env :=
  ⟨fun _ => ⟨["json"], none⟩, fun _ => none, fun _ => some ⟨"rate limited"⟩, fun f => f, "",
    .ok "/tmp/slides1", fun _ _ => none⟩

/-- The server after one submission of `samplePrompt` under the id `job-1`. -/
def sysSubmitted : Sys :=
  ⟨(postHandler Sys.init.studies "job-1" samplePrompt).studies,
    (postHandler Sys.init.studies "job-1" samplePrompt).spawned :: Sys.init.tasks⟩

/-- The server after that job has run in the world `envOk`. -/
def sysDone : Sys :=
  ⟨(ProcessPrompt envOk "job-1" samplePrompt sysSubmitted.studies).studies,
    sysSubmitted.tasks.erase ("job-1", samplePrompt)⟩

/-- The server after a second submission, under the id `job-2`. -/
def sysSecond : Sys :=
  ⟨(postHandler sysDone.studies "job-2" "hi").studies,
    (postHandler sysDone.studies "job-2" "hi").spawned :: sysDone.tasks⟩

/-- A file system in which only the artifact of `job-1` can be read. -/
def sampleReadFile (path : String) : Option (List UInt8) :=
  if path = "/tmp/slides1/output.pdf" then some [37, 80, 68, 70] else none

/-! ## The job map -/

theorem Studies.get_filter_ne (m : Studies) (id k : String) (h : k ≠ id) :
    Studies.get (m.filter (fun e => e.1 != id)) k = Studies.get m k := by
  induction m with
  | nil => rfl
  | cons e rest ih =>
    obtain ⟨a, r⟩ := e
    by_cases ha : a = id
    · subst ha
      have hk : ¬ a = k := fun h2 => h h2.symm
      simp [Studies.get, hk, ih]
    · have hf : List.filter (fun e : String × StudyRequest => e.1 != id) ((a, r) :: rest)
          = (a, r) :: List.filter (fun e : String × StudyRequest => e.1 != id) rest := by
        simp [List.filter_cons, ha]
      rw [hf]
      by_cases hak : a = k
      · simp [Studies.get, hak]
      · simp [Studies.get, hak, ih]

theorem Studies.get_put (m : Studies) (id k : String) (r : StudyRequest) :
    (m.put id r).get k = if k = id then some r else m.get k := by
  by_cases h : k = id
  · subst h
    simp [Studies.put, Studies.get]
  · have h2 : ¬ id = k := fun h3 => h h3.symm
    simp [Studies.put, Studies.get, h, h2, Studies.get_filter_ne m id k h]

theorem Studies.get_modify (m : Studies) (id k : String) (f : StudyRequest → StudyRequest) :
    (m.modify id f).get k = if k = id then (m.get k).map f else m.get k := by
  induction m with
  | nil => simp [Studies.modify, Studies.get]
  | cons e rest ih =>
    obtain ⟨a, r⟩ := e
    by_cases ha : a = id
    · subst ha
      by_cases hk : a = k
      · subst hk
        simp [Studies.modify, Studies.get]
      · have hk2 : ¬ k = a := fun h => hk h.symm
        simp [Studies.modify, Studies.get, hk, hk2, ih]
    · by_cases hk : a = k
      · subst hk
        simp [Studies.modify, Studies.get, ha]
      · simp [Studies.modify, Studies.get, ha, hk, ih]

theorem Studies.keys_modify (m : Studies) (id : String) (f : StudyRequest → StudyRequest) :
    (m.modify id f).map Prod.fst = m.map Prod.fst := by
  induction m with
  | nil => rfl
  | cons e rest ih =>
    obtain ⟨a, r⟩ := e
    by_cases h : a = id <;> simp [Studies.modify, h, ih]

theorem Studies.get_none_iff (m : Studies) (id : String) :
    m.get id = none ↔ id ∉ m.map Prod.fst := by
  induction m with
  | nil => simp [Studies.get]
  | cons e rest ih =>
    obtain ⟨a, r⟩ := e
    by_cases h : a = id
    · simp [Studies.get, h]
    · have h2 : ¬ id = a := fun h3 => h h3.symm
      simp [Studies.get, h, h2, ih]

/-! ## Field assignments -/

theorem writeField_of_get (m : Studies) (id : String) (w : Write) (r : StudyRequest)
    (h : m.get id = some r) : writeField m id w = .ret (m.modify id w.apply) := by
  simp [writeField, h]

theorem execWrites_frame (ws : List Write) (m : Studies) (id : String) :
    (execWrites m id ws).studies.map Prod.fst = m.map Prod.fst ∧
      ∀ k, k ≠ id → (execWrites m id ws).studies.get k = m.get k := by
  induction ws generalizing m with
  | nil => simp [execWrites]
  | cons w ws ih =>
    cases hg : m.get id with
    | none => simp [execWrites, writeField, hg]
    | some r =>
      simp only [execWrites, writeField_of_get m id w r hg]
      obtain ⟨h1, h2⟩ := ih (m.modify id w.apply)
      refine ⟨by rw [h1, Studies.keys_modify], fun k hk => ?_⟩
      rw [h2 k hk, Studies.get_modify]
      simp [hk]

theorem execWrites_of_get (ws : List Write) (m : Studies) (id : String) (r : StudyRequest)
    (h : m.get id = some r) :
    (execWrites m id ws).panic = none ∧
      (execWrites m id ws).studies.get id = some (applyWrites ws r) := by
  induction ws generalizing m r with
  | nil => simp [execWrites, applyWrites, h]
  | cons w ws ih =>
    simp only [execWrites, writeField_of_get m id w r h]
    have hg : (m.modify id w.apply).get id = some (w.apply r) := by
      rw [Studies.get_modify]; simp [h]
    simpa [applyWrites] using ih (m.modify id w.apply) (w.apply r) hg

theorem traceWrites_of_get (ws : List Write) (m : Studies) (id : String) (r : StudyRequest)
    (h : m.get id = some r) (t : Studies) (ht : t ∈ traceWrites m id ws) :
    ∃ n, t.get id = some (applyWrites (ws.take n) r) := by
  induction ws generalizing m r with
  | nil =>
    simp only [traceWrites, List.mem_singleton] at ht
    subst ht
    exact ⟨0, by simpa [applyWrites] using h⟩
  | cons w ws ih =>
    simp only [traceWrites, writeField_of_get m id w r h, List.mem_cons] at ht
    rcases ht with ht | ht
    · subst ht
      exact ⟨0, by simpa [applyWrites] using h⟩
    · have hg : (m.modify id w.apply).get id = some (w.apply r) := by
        rw [Studies.get_modify]; simp [h]
      obtain ⟨n, hn⟩ := ih (m.modify id w.apply) (w.apply r) hg ht
      exact ⟨n + 1, by simpa [applyWrites] using hn⟩

theorem traceWrites_ne_nil (ws : List Write) (m : Studies) (id : String) :
    traceWrites m id ws ≠ [] := by
  cases ws with
  | nil => simp [traceWrites]
  | cons w ws =>
    simp only [traceWrites]
    cases writeField m id w <;> simp

theorem traceWrites_head (ws : List Write) (m : Studies) (id : String) :
    (traceWrites m id ws).head? = some m := by
  cases ws with
  | nil => simp [traceWrites]
  | cons w ws =>
    simp only [traceWrites]
    cases writeField m id w <;> simp

theorem traceWrites_last (ws : List Write) (m : Studies) (id : String) :
    (traceWrites m id ws).getLast? = some (execWrites m id ws).studies := by
  induction ws generalizing m with
  | nil => simp [traceWrites, execWrites]
  | cons w ws ih =>
    simp only [traceWrites, execWrites]
    cases hw : writeField m id w with
    | panicked p => simp
    | ret m1 =>
      simp only
      rw [List.getLast?_cons, ih]
      rfl

/-! ## The worker -/

theorem generateSlides_output_ne_empty (env : Env) (cs : CaseStudy) (out : String)
    (h : generateSlides env cs = (out, none)) : out ≠ "" := by
  unfold generateSlides at h
  cases hm : env.mkdirTemp with
  | error e => simp [hm] at h
  | ok dir =>
    simp only [hm] at h
    cases hc : env.runChromium dir (slidesHtml env.page cs) with
    | some e => simp [hc] at h
    | none =>
      simp only [hc, Prod.mk.injEq, and_true] at h
      intro hout
      rw [hout] at h
      have hd := congrArg String.length h
      simp [String.length_append] at hd
      have hl : "/output.pdf".length = 11 := by decide
      omega

theorem ProcessPromptWrites_cases (env : Env) (prompt : String) :
    (∃ p, ProcessPromptWrites env prompt = .panicked p) ∨
    (∃ e, ProcessPromptWrites env prompt = .ret [.err e, .status StudyStatusFailed]) ∨
    (∃ cs out, out ≠ "" ∧ ProcessPromptWrites env prompt =
      .ret [.study cs, .status StudyStatusComplete, .file out]) := by
  unfold ProcessPromptWrites
  cases hg : GetSummary env prompt with
  | panicked p => exact Or.inl ⟨p, rfl⟩
  | ret v =>
    obtain ⟨cs, e⟩ := v
    cases e with
    | some e => exact Or.inr (Or.inl ⟨e, rfl⟩)
    | none =>
      simp only
      cases hs : generateSlides env cs with
      | mk out e2 =>
        cases e2 with
        | some e2 => exact Or.inr (Or.inl ⟨"Failed to generate slides", rfl⟩)
        | none =>
          exact Or.inr (Or.inr ⟨cs, out, generateSlides_output_ne_empty env cs out hs, rfl⟩)

theorem ProcessPrompt_frame (env : Env) (id prompt : String) (m : Studies) :
    (ProcessPrompt env id prompt m).studies.map Prod.fst = m.map Prod.fst ∧
      ∀ k, k ≠ id → (ProcessPrompt env id prompt m).studies.get k = m.get k := by
  unfold ProcessPrompt
  cases ProcessPromptWrites env prompt with
  | panicked p => simp
  | ret ws => exact execWrites_frame ws m id

theorem ProcessPrompt_record (env : Env) (id prompt : String) (m : Studies) (r : StudyRequest)
    (hget : m.get id = some r) (hp : r.status = StudyStatusPending) (hc : Consistent r)
    (hok : (ProcessPrompt env id prompt m).panic = none) :
    ∃ t, (ProcessPrompt env id prompt m).studies.get id = some t ∧ Consistent t ∧
      t.status ≠ StudyStatusPending := by
  obtain ⟨st, stat, fl, er⟩ := r
  simp only at hp
  subst hp
  simp only [Consistent] at hc
  obtain ⟨h1, h2, h3⟩ := hc
  subst h1 h2 h3
  unfold ProcessPrompt at hok ⊢
  rcases ProcessPromptWrites_cases env prompt with ⟨p, h⟩ | ⟨e, h⟩ | ⟨cs, out, hout, h⟩
  · simp [h] at hok
  · rw [h]
    refine ⟨_, (execWrites_of_get _ m id _ hget).2, ?_, ?_⟩ <;>
      simp [applyWrites, Write.apply, Consistent]
  · rw [h]
    refine ⟨_, (execWrites_of_get _ m id _ hget).2, ?_, ?_⟩ <;>
      simp [applyWrites, Write.apply, Consistent, hout]

/-! ## The running server -/

theorem erase_fst_ne (l : List (String × String)) (a b : String) (t : String × String)
    (hnd : (l.map Prod.fst).Nodup) (hmem : (a, b) ∈ l) (ht : t ∈ l.erase (a, b)) : t.1 ≠ a := by
  have hl : l.Nodup := List.Nodup.of_map Prod.fst hnd
  rw [List.Nodup.mem_erase_iff hl] at ht
  intro h
  exact ht.1 (List.inj_on_of_nodup_map hnd ht.2 hmem h)

theorem Inv_init : Inv Sys.init := by
  refine ⟨?_, ?_, ?_⟩ <;> simp [Sys.init, Studies.empty, Studies.get]

theorem Inv_step (s t : Sys) (hs : Inv s) (hst : Step s t) : Inv t := by
  obtain ⟨h1, h2, h3⟩ := hs
  cases hst with
  | submit id form hnew =>
    refine ⟨?_, ?_, ?_⟩
    · intro k r hk
      simp only [postHandler, Studies.get_put] at hk
      by_cases hkid : k = id
      · simp only [hkid, if_true, Option.some.injEq] at hk
        subst hk
        simp [Consistent]
      · simp only [hkid, if_false] at hk
        exact h1 k r hk
    · intro u hu
      simp only [postHandler, List.mem_cons] at hu
      rcases hu with hu | hu
      · subst hu
        exact ⟨⟨none, StudyStatusPending, "", none⟩, by simp [postHandler, Studies.get_put], rfl⟩
      · obtain ⟨r, hr, hp⟩ := h2 u hu
        have hne : u.1 ≠ id := by
          intro h
          rw [h, hnew] at hr
          exact Option.noConfusion hr
        exact ⟨r, by simp [postHandler, Studies.get_put, hne, hr], hp⟩
    · simp only [postHandler, List.map_cons, List.nodup_cons]
      refine ⟨?_, h3⟩
      intro hmem
      obtain ⟨u, hu, hu1⟩ := List.mem_map.mp hmem
      obtain ⟨r, hr, _⟩ := h2 u hu
      rw [hu1, hnew] at hr
      exact Option.noConfusion hr
  | run env id prompt hmem hok =>
    obtain ⟨r, hr, hp⟩ := h2 (id, prompt) hmem
    obtain ⟨hkeys, hframe⟩ := ProcessPrompt_frame env id prompt s.studies
    refine ⟨?_, ?_, ?_⟩
    · intro k q hk
      by_cases hkid : k = id
      · subst hkid
        obtain ⟨q2, hq2, hc, _⟩ :=
          ProcessPrompt_record env k prompt s.studies r hr hp (h1 k r hr) hok
        simp only at hk
        rw [hq2] at hk
        cases hk
        exact hc
      · simp only at hk
        rw [hframe k hkid] at hk
        exact h1 k q hk
    · intro u hu
      simp only at hu ⊢
      have hne : u.1 ≠ id := erase_fst_ne s.tasks id prompt u h3 hmem hu
      rw [hframe u.1 hne]
      exact h2 u (List.mem_of_mem_erase hu)
    · exact List.Nodup.sublist ((List.erase_sublist _ _).map Prod.fst) h3

theorem Reachable_Inv (s : Sys) (hs : Reachable s) : Inv s := by
  induction hs with
  | init => exact Inv_init
  | step s t _ hst ih => exact Inv_step s t ih hst

theorem Later_Inv (s t : Sys) (hs : Inv s) (hst : Later s t) : Inv t := by
  induction hst with
  | refl => exact hs
  | tail _ hbc ih => exact Inv_step _ _ ih hbc

theorem Step_terminal (s t : Sys) (hs : Inv s) (hst : Step s t) (id : String) (r : StudyRequest)
    (hr : s.studies.get id = some r) (hterm : r.status ≠ StudyStatusPending) :
    t.studies.get id = some r := by
  obtain ⟨_, h2, _⟩ := hs
  cases hst with
  | submit k form hnew =>
    have hne : id ≠ k := by
      intro h
      rw [h, hnew] at hr
      exact Option.noConfusion hr
    simp [postHandler, Studies.get_put, hne, hr]
  | run env k prompt hmem hok =>
    obtain ⟨q, hq, hp⟩ := h2 (k, prompt) hmem
    have hne : id ≠ k := by
      intro h
      subst h
      simp only at hq
      rw [hr] at hq
      cases hq
      exact hterm hp
    simp only
    rw [(ProcessPrompt_frame env k prompt s.studies).2 id hne]
    exact hr

theorem Later_terminal (s t : Sys) (hs : Inv s) (hst : Later s t) (id : String)
    (r : StudyRequest) (hr : s.studies.get id = some r) (hterm : r.status ≠ StudyStatusPending) :
    t.studies.get id = some r := by
  induction hst with
  | refl => exact hr
  | tail hab hbc ih => exact Step_terminal _ _ (Later_Inv s _ hs hab) hbc id r ih hterm

theorem Step_status (s t : Sys) (hs : Inv s) (hst : Step s t) (id : String)
    (r q : StudyRequest) (hr : s.studies.get id = some r) (hq : t.studies.get id = some q)
    (hne : q.status ≠ r.status) :
    r.status = StudyStatusPending ∧ q.status ≠ StudyStatusPending := by
  by_cases hp : r.status = StudyStatusPending
  · refine ⟨hp, ?_⟩
    rw [hp] at hne
    exact hne
  · have := Step_terminal s t hs hst id r hr hp
    rw [this] at hq
    cases hq
    exact absurd rfl hne

theorem Reachable_sysSubmitted : Reachable sysSubmitted :=
  .step Sys.init sysSubmitted .init (.submit Sys.init "job-1" samplePrompt rfl)

theorem Reachable_sysDone : Reachable sysDone :=
  .step sysSubmitted sysDone Reachable_sysSubmitted
    (.run sysSubmitted envOk "job-1" samplePrompt (by decide) (by decide))

theorem Later_sysSecond : Later sysDone sysSecond :=
  Relation.ReflTransGen.single (.submit sysDone "job-2" "hi" (by decide))

theorem Studies.size_put_new (m : Studies) (id : String) (r : StudyRequest)
    (h : m.get id = none) : (m.put id r).size = m.size + 1 := by
  have hf : m.filter (fun e => e.1 != id) = m := by
    rw [List.filter_eq_self]
    intro e he
    have hne : e.1 ≠ id := by
      intro heq
      exact (Studies.get_none_iff m id).mp h (List.mem_map.mpr ⟨e, he, heq⟩)
    simp [hne]
  simp [Studies.put, Studies.size, hf]

/-! ## C1: the record invariant -/

/-- C1: in every state reachable by submissions under new ids and completed runs
of `ProcessPrompt`, whatever `GetSummary` and `generateSlides` did, each record
has neither result nor error while pending, the result and no error when
complete, the error and no result when failed. -/
theorem record_invariant_of_reachable (s : Sys) (hs : Reachable s) (id : String)
    (r : StudyRequest) (hr : s.studies.get id = some r) :
    (r.status = StudyStatusPending → r.study = none ∧ r.file = "" ∧ r.err = none) ∧
    (r.status = StudyStatusComplete → r.study ≠ none ∧ r.file ≠ "" ∧ r.err = none) ∧
    (r.status = StudyStatusFailed → r.err ≠ none ∧ r.study = none ∧ r.file = "") := by
  have hc := (Reachable_Inv s hs).1 id r hr
  unfold Consistent at hc
  refine ⟨fun h => ?_, fun h => ?_, fun h => ?_⟩ <;> simpa [h] using hc

/-- The invariant at the state reached by one submission and one successful run. -/
theorem record_invariant_of_reachable_witness :
    Reachable sysDone ∧
    sysDone.studies.get "job-1" =
      some ⟨some sampleStudy, StudyStatusComplete, "/tmp/slides1/output.pdf", none⟩ ∧
    ((some sampleStudy : Option CaseStudy) ≠ none ∧ "/tmp/slides1/output.pdf" ≠ "" ∧
      (none : Option String) = none) :=
  ⟨Reachable_sysDone, by decide,
    (record_invariant_of_reachable sysDone Reachable_sysDone "job-1"
      ⟨some sampleStudy, StudyStatusComplete, "/tmp/slides1/output.pdf", none⟩ (by decide)).2.1 rfl⟩

/-! ## C2: a request below the minimum length -/

/-- C2, as stated, fails: the request `hi` has fewer than 8 bytes, yet the POST
handler produces the redirect to the new id, inserts a record and the job map
grows from 0 to 1 entries. -/
theorem short_request_is_submitted :
    "hi".utf8ByteSize < 8 ∧
    Studies.empty.size = 0 ∧
    (postHandler Studies.empty "job-1" "hi").studies.size = 1 ∧
    (postHandler Studies.empty "job-1" "hi").studies.get "job-1" = some pendingRecord ∧
    (postHandler Studies.empty "job-1" "hi").redirect = "/study/job-1" := by
  decide

/-- C2, amended: for a request shorter than 8 bytes the POST handler still
inserts a pending record under the new id (the map grows by one) and starts the
worker; the length check is made by `GetSummary` inside the worker, and
`ProcessPrompt` ends without panic with the job failed and the fixed message
stored in the record. -/
theorem short_request_fails_in_worker (env : Env) (studies : Studies) (id form : String)
    (hshort : form.utf8ByteSize < 8) (hnew : studies.get id = none) :
    (postHandler studies id form).studies.get id = some ⟨none, StudyStatusPending, "", none⟩ ∧
    (postHandler studies id form).studies.size = studies.size + 1 ∧
    (postHandler studies id form).spawned = (id, form) ∧
    (postHandler studies id form).redirect = "/study/" ++ id ∧
    (ProcessPrompt env id form (postHandler studies id form).studies).panic = none ∧
    (ProcessPrompt env id form (postHandler studies id form).studies).studies.get id =
      some ⟨none, StudyStatusFailed, "",
        some "Prompt is too short, please provide more information"⟩ := by
  have hg : (postHandler studies id form).studies.get id =
      some ⟨none, StudyStatusPending, "", none⟩ := by
    simp [postHandler, Studies.get_put]
  have hw : ProcessPromptWrites env form =
      .ret [.err "Prompt is too short, please provide more information",
        .status StudyStatusFailed] := by
    simp [ProcessPromptWrites, GetSummary, hshort]
  refine ⟨hg, ?_, rfl, rfl, ?_, ?_⟩
  · simpa [postHandler] using Studies.size_put_new studies id _ hnew
  · simp only [ProcessPrompt, hw]
    exact (execWrites_of_get _ _ id _ hg).1
  · simp only [ProcessPrompt, hw]
    rw [(execWrites_of_get _ _ id _ hg).2]
    simp [applyWrites, Write.apply]

/-- The amended C2 at the request `hi` submitted to the empty map. -/
theorem short_request_fails_in_worker_witness :
    "hi".utf8ByteSize < 8 ∧ Studies.empty.get "job-1" = none ∧
    (postHandler Studies.empty "job-1" "hi").studies.size = Studies.empty.size + 1 ∧
    (ProcessPrompt envOk "job-1" "hi" (postHandler Studies.empty "job-1" "hi").studies).studies.get
        "job-1" =
      some ⟨none, StudyStatusFailed, "",
        some "Prompt is too short, please provide more information"⟩ :=
  ⟨by decide, rfl,
    (short_request_fails_in_worker envOk Studies.empty "job-1" "hi" (by decide) rfl).2.1,
    (short_request_fails_in_worker envOk Studies.empty "job-1" "hi" (by decide) rfl).2.2.2.2.2⟩

/-! ## C3: what the two queries tell apart -/

/-- C3, as stated, fails: the status query gives the same answer for a pending
and for a failed job, and the page query gives the same answer for an unknown id
and for a failed job. -/
theorem queries_merge_cases :
    statusHandler [("job-1", ⟨none, StudyStatusPending, "", none⟩)] "job-1" =
      statusHandler [("job-1", ⟨none, StudyStatusFailed, "", some "rate limited"⟩)] "job-1" ∧
    studyHandler [] "job-1" =
      studyHandler [("job-1", ⟨none, StudyStatusFailed, "", some "rate limited"⟩)] "job-1" := by
  decide

/-- C3, amended: for two job maps in which `id` falls into different cases, the
status query gives the same answer exactly when one job is pending and the other
failed (both `Not ready`), and the page query gives the same answer exactly when
one id is unknown and the other job failed (both the flash `Study not found`
with a redirect to `/`); every other pair of cases is told apart, and a complete
job is told apart from all three. -/
theorem queries_distinguish (m1 m2 : Studies) (id : String)
    (hne : jobCase m1 id ≠ jobCase m2 id) :
    (statusHandler m1 id = statusHandler m2 id ↔
      (jobCase m1 id = some StudyStatusPending ∧ jobCase m2 id = some StudyStatusFailed) ∨
      (jobCase m1 id = some StudyStatusFailed ∧ jobCase m2 id = some StudyStatusPending)) ∧
    (studyHandler m1 id = studyHandler m2 id ↔
      (jobCase m1 id = none ∧ jobCase m2 id = some StudyStatusFailed) ∨
      (jobCase m1 id = some StudyStatusFailed ∧ jobCase m2 id = none)) := by
  unfold jobCase at hne ⊢
  unfold statusHandler studyHandler
  cases h1 : m1.get id with
  | none =>
    cases h2 : m2.get id with
    | none => simp [h1, h2] at hne
    | some r2 =>
      obtain ⟨a2, st2, f2, e2⟩ := r2
      cases st2 <;> simp
  | some r1 =>
    obtain ⟨a1, st1, f1, e1⟩ := r1
    cases h2 : m2.get id with
    | none => cases st1 <;> simp
    | some r2 =>
      obtain ⟨a2, st2, f2, e2⟩ := r2
      simp only [h1, h2, Option.map_some', ne_eq, Option.some.injEq] at hne
      cases st1 <;> cases st2 <;> simp at hne ⊢

/-- The amended C3 at an unknown id against a complete job. -/
theorem queries_distinguish_witness :
    jobCase [] "job-1" ≠ jobCase sysDone.studies "job-1" ∧
    statusHandler [] "job-1" ≠ statusHandler sysDone.studies "job-1" ∧
    studyHandler [] "job-1" ≠ studyHandler sysDone.studies "job-1" :=
  ⟨by decide,
    fun h => absurd ((queries_distinguish [] sysDone.studies "job-1" (by decide)).1.mp h)
      (by decide),
    fun h => absurd ((queries_distinguish [] sysDone.studies "job-1" (by decide)).2.mp h)
      (by decide)⟩

/-! ## C4: the stored failure message -/

/-- C4, as stated, fails: when chromium fails with `rate limited`,
`generateSlides` returns that error but the record stores
`Failed to generate slides`; when the model call fails with `rate limited`,
`GetSummary` returns, and the record stores, `Failed to connect to AI model`. -/
theorem failure_message_replaced :
    generateSlides envRenderFails sampleStudy = ("", some "rate limited") ∧
    (ProcessPrompt envRenderFails "job-1" samplePrompt sysSubmitted.studies).studies.get "job-1" =
      some ⟨none, StudyStatusFailed, "", some "Failed to generate slides"⟩ ∧
    (envChatFails.createChatCompletion samplePrompt).err = some "rate limited" ∧
    (ProcessPrompt envChatFails "job-1" samplePrompt sysSubmitted.studies).studies.get "job-1" =
      some ⟨none, StudyStatusFailed, "", some "Failed to connect to AI model"⟩ := by
  decide

/-- C4, amended: for a job in the map, when `GetSummary` returns an error with
message `e` the run ends without panic, failed, with exactly `e` stored; when
`generateSlides` returns any error the run ends without panic, failed, with the
fixed message `Failed to generate slides` stored; and a failed model call makes
`GetSummary` return the fixed message `Failed to connect to AI model`. -/
theorem failure_message_stored (env : Env) (id prompt : String) (m : Studies)
    (r : StudyRequest) (hr : m.get id = some r) :
    (∀ cs e, GetSummary env prompt = .ret (cs, some e) →
      (ProcessPrompt env id prompt m).panic = none ∧
      (ProcessPrompt env id prompt m).studies.get id =
        some ⟨r.study, StudyStatusFailed, r.file, some e⟩) ∧
    (∀ cs out e, GetSummary env prompt = .ret (cs, none) →
      generateSlides env cs = (out, some e) →
      (ProcessPrompt env id prompt m).panic = none ∧
      (ProcessPrompt env id prompt m).studies.get id =
        some ⟨r.study, StudyStatusFailed, r.file, some "Failed to generate slides"⟩) ∧
    (∀ e, 8 ≤ prompt.utf8ByteSize → (env.createChatCompletion prompt).err = some e →
      GetSummary env prompt = .ret (CaseStudy.zero, some "Failed to connect to AI model")) := by
  refine ⟨?_, ?_, ?_⟩
  · intro cs e hg
    have hw : ProcessPromptWrites env prompt = .ret [.err e, .status StudyStatusFailed] := by
      simp [ProcessPromptWrites, hg]
    simp only [ProcessPrompt, hw]
    refine ⟨(execWrites_of_get _ m id r hr).1, ?_⟩
    rw [(execWrites_of_get _ m id r hr).2]
    simp [applyWrites, Write.apply]
  · intro cs out e hg hs
    have hw : ProcessPromptWrites env prompt =
        .ret [.err "Failed to generate slides", .status StudyStatusFailed] := by
      simp [ProcessPromptWrites, hg, hs]
    simp only [ProcessPrompt, hw]
    refine ⟨(execWrites_of_get _ m id r hr).1, ?_⟩
    rw [(execWrites_of_get _ m id r hr).2]
    simp [applyWrites, Write.apply]
  · intro e hlen he
    have hlt : ¬ prompt.utf8ByteSize < 8 := by omega
    simp [GetSummary, hlt, he]

/-- The amended C4 when the model answers with an error object carrying `rate limited`. -/
theorem failure_message_stored_witness :
    sysSubmitted.studies.get "job-1" = some pendingRecord ∧
    GetSummary envModelError samplePrompt = .ret (CaseStudy.zero, some "rate limited") ∧
    (ProcessPrompt envModelError "job-1" samplePrompt sysSubmitted.studies).studies.get "job-1" =
      some ⟨none, StudyStatusFailed, "", some "rate limited"⟩ :=
  ⟨by decide, rfl,
    ((failure_message_stored envModelError "job-1" samplePrompt sysSubmitted.studies
      pendingRecord (by decide)).1 CaseStudy.zero "rate limited" rfl).2⟩

/-! ## C5: the states between two field assignments -/

/-- C5, as stated, fails: on the success path the state after `status` is
assigned and before `file` is assigned holds a complete record with no file, and
on a failure path the state after `err` is assigned and before `status` is
assigned holds a pending record with an error. -/
theorem torn_record_visible :
    (ProcessPromptTrace envOk "job-1" samplePrompt sysSubmitted.studies).map
        (fun t => t.get "job-1") =
      [some ⟨none, StudyStatusPending, "", none⟩,
       some ⟨some sampleStudy, StudyStatusPending, "", none⟩,
       some ⟨some sampleStudy, StudyStatusComplete, "", none⟩,
       some ⟨some sampleStudy, StudyStatusComplete, "/tmp/slides1/output.pdf", none⟩] ∧
    Torn ⟨some sampleStudy, StudyStatusComplete, "", none⟩ ∧
    (ProcessPromptTrace envChatFails "job-1" samplePrompt sysSubmitted.studies).map
        (fun t => t.get "job-1") =
      [some ⟨none, StudyStatusPending, "", none⟩,
       some ⟨none, StudyStatusPending, "", some "Failed to connect to AI model"⟩,
       some ⟨none, StudyStatusFailed, "", some "Failed to connect to AI model"⟩] ∧
    Torn ⟨none, StudyStatusPending, "", some "Failed to connect to AI model"⟩ := by
  decide

/-- C5, amended: for a job submitted and not yet run, the states a reader can
see during `ProcessPrompt` start with the state before the run and end with the
state the run leaves; the record is not torn in the first and in the last of
them, and in every one of them, the intermediate ones included, it is never
complete with `study` absent and never failed with `err` absent. -/
theorem trace_record_bounds (env : Env) (id prompt : String) (m : Studies) (r : StudyRequest)
    (hr : m.get id = some r) (hp : r.status = StudyStatusPending) (hc : Consistent r) :
    (ProcessPromptTrace env id prompt m).head? = some m ∧
    (ProcessPromptTrace env id prompt m).getLast? = some (ProcessPrompt env id prompt m).studies ∧
    ¬ Torn r ∧
    (∃ q, (ProcessPrompt env id prompt m).studies.get id = some q ∧ ¬ Torn q) ∧
    (∀ t ∈ ProcessPromptTrace env id prompt m, ∃ q, t.get id = some q ∧
      ¬ (q.status = StudyStatusComplete ∧ q.study = none) ∧
      ¬ (q.status = StudyStatusFailed ∧ q.err = none)) := by
  obtain ⟨st, stat, fl, er⟩ := r
  simp only at hp
  subst hp
  simp only [Consistent] at hc
  obtain ⟨h1, h2, h3⟩ := hc
  subst h1 h2 h3
  unfold ProcessPromptTrace ProcessPrompt
  rcases ProcessPromptWrites_cases env prompt with ⟨p, h⟩ | ⟨e, h⟩ | ⟨cs, out, hout, h⟩
  · simp [h, hr, Torn]
  · simp only [h]
    refine ⟨traceWrites_head _ m id, traceWrites_last _ m id, by simp [Torn],
      ⟨_, (execWrites_of_get _ m id _ hr).2, by simp [applyWrites, Write.apply, Torn]⟩, ?_⟩
    intro t ht
    obtain ⟨n, hn⟩ := traceWrites_of_get _ m id _ hr t ht
    refine ⟨_, hn, ?_⟩
    rcases n with _ | _ | n <;> simp [applyWrites, Write.apply]
  · simp only [h]
    refine ⟨traceWrites_head _ m id, traceWrites_last _ m id, by simp [Torn],
      ⟨_, (execWrites_of_get _ m id _ hr).2, by simp [applyWrites, Write.apply, Torn, hout]⟩, ?_⟩
    intro t ht
    obtain ⟨n, hn⟩ := traceWrites_of_get _ m id _ hr t ht
    refine ⟨_, hn, ?_⟩
    rcases n with _ | _ | _ | n <;> simp [applyWrites, Write.apply]

/-- The amended C5 at the successful run of `job-1`. -/
theorem trace_record_bounds_witness :
    sysSubmitted.studies.get "job-1" = some pendingRecord ∧
    pendingRecord.status = StudyStatusPending ∧ Consistent pendingRecord ∧
    (ProcessPromptTrace envOk "job-1" samplePrompt sysSubmitted.studies).getLast? =
      some (ProcessPrompt envOk "job-1" samplePrompt sysSubmitted.studies).studies ∧
    ¬ Torn pendingRecord :=
  ⟨by decide, rfl, by decide,
    (trace_record_bounds envOk "job-1" samplePrompt sysSubmitted.studies pendingRecord
      (by decide) rfl (by decide)).2.1,
    (trace_record_bounds envOk "job-1" samplePrompt sysSubmitted.studies pendingRecord
      (by decide) rfl (by decide)).2.2.1⟩

/-! ## C6: a response with zero choices -/

theorem ProcessPrompt_panic_iff (env : Env) (id prompt : String) (m : Studies)
    (r : StudyRequest) (hr : m.get id = some r) :
    (ProcessPrompt env id prompt m).panic ≠ none ↔
      (8 ≤ prompt.utf8ByteSize ∧ (env.createChatCompletion prompt).err = none ∧
        (env.createChatCompletion prompt).choices = []) := by
  unfold ProcessPrompt
  constructor
  · intro hpanic
    by_contra hcon
    apply hpanic
    have hno : ∀ ws, ProcessPromptWrites env prompt = .ret ws →
        (match ProcessPromptWrites env prompt with
          | .panicked p => (⟨m, some p⟩ : Run)
          | .ret ws => execWrites m id ws).panic = none := by
      intro ws hws
      rw [hws]
      exact (execWrites_of_get ws m id r hr).1
    rcases ProcessPromptWrites_cases env prompt with ⟨p, h⟩ | ⟨e, h⟩ | ⟨cs, out, _, h⟩
    · exfalso
      apply hcon
      unfold ProcessPromptWrites GetSummary at h
      by_cases hlen : prompt.utf8ByteSize < 8
      · simp [hlen] at h
      · refine ⟨by omega, ?_⟩
        simp only [hlen, if_false] at h
        cases herr : (env.createChatCompletion prompt).err with
        | some e => simp [herr] at h
        | none =>
          refine ⟨rfl, ?_⟩
          cases hch : (env.createChatCompletion prompt).choices with
          | nil => rfl
          | cons c cs =>
            simp only [herr, hch] at h
            cases hu : env.unmarshalResponse c with
            | some v =>
              simp only [hu] at h
              cases hs : generateSlides env v.CaseStudy with
              | mk o e2 => cases e2 <;> simp [hs] at h
            | none =>
              simp only [hu] at h
              cases hu2 : env.unmarshalErrorResponse c <;> simp [hu2] at h
    · exact hno _ h
    · exact hno _ h
  · rintro ⟨hlen, herr, hch⟩
    have hlt : ¬ prompt.utf8ByteSize < 8 := by omega
    simp [ProcessPromptWrites, GetSummary, hlt, herr, hch]

/-- C6, at the failing input: the job `job-1` is in the map with status pending,
the prompt has 40 bytes, the model call returns no error and zero choices; the
worker panics on `resp.Choices[0]` and the job is left pending. -/
theorem zero_choices_panics :
    sysSubmitted.studies.get "job-1" = some ⟨none, StudyStatusPending, "", none⟩ ∧
    envNoChoices.createChatCompletion samplePrompt = ⟨[], none⟩ ∧
    (ProcessPrompt envNoChoices "job-1" samplePrompt sysSubmitted.studies).panic =
      some "runtime error: index out of range [0] with length 0" ∧
    (ProcessPrompt envNoChoices "job-1" samplePrompt sysSubmitted.studies).studies.get "job-1" =
      some ⟨none, StudyStatusPending, "", none⟩ := by
  decide

/-! ## C7: the status only moves from pending to a terminal value -/

/-- C7: in a reachable state `s`, a submission under an id not in the map leaves
that job pending; a job whose status is complete or failed in `s` has the same
status in every later state; and a single step changes a status only from
pending to complete or failed. -/
theorem status_monotone (s : Sys) (hs : Reachable s) :
    (∀ id form, s.studies.get id = none →
      jobCase (postHandler s.studies id form).studies id = some StudyStatusPending) ∧
    (∀ t, Later s t → ∀ id r, s.studies.get id = some r → r.status ≠ StudyStatusPending →
      jobCase t.studies id = some r.status) ∧
    (∀ t, Step s t → ∀ id r q, s.studies.get id = some r → t.studies.get id = some q →
      q.status ≠ r.status →
      r.status = StudyStatusPending ∧
        (q.status = StudyStatusComplete ∨ q.status = StudyStatusFailed)) := by
  have hinv := Reachable_Inv s hs
  refine ⟨?_, ?_, ?_⟩
  · intro id form _
    simp [jobCase, postHandler, Studies.get_put]
  · intro t hst id r hr hterm
    simp [jobCase, Later_terminal s t hinv hst id r hr hterm]
  · intro t hst id r q hr hq hne
    obtain ⟨h1, h2⟩ := Step_status s t hinv hst id r q hr hq hne
    refine ⟨h1, ?_⟩
    cases hq2 : q.status with
    | StudyStatusPending => exact absurd hq2 h2
    | StudyStatusComplete => exact Or.inl rfl
    | StudyStatusFailed => exact Or.inr rfl

/-- The job `job-1`, complete after its run, is still complete after a later submission. -/
theorem status_monotone_witness :
    Reachable sysDone ∧ Later sysDone sysSecond ∧
    sysDone.studies.get "job-1" =
      some ⟨some sampleStudy, StudyStatusComplete, "/tmp/slides1/output.pdf", none⟩ ∧
    jobCase sysSecond.studies "job-1" = some StudyStatusComplete :=
  ⟨Reachable_sysDone, Later_sysSecond, by decide,
    (status_monotone sysDone Reachable_sysDone).2.1 sysSecond Later_sysSecond "job-1"
      ⟨some sampleStudy, StudyStatusComplete, "/tmp/slides1/output.pdf", none⟩ (by decide)
      (by decide)⟩

/-! ## C8: the artifact query -/

/-- C8: in every reachable state, when the empty path is not a readable file,
the artifact query returns the empty body for an unknown id and for a job whose
status is not complete, so it returns bytes only for a job that exists and is
complete. -/
theorem pdf_only_when_complete (s : Sys) (hs : Reachable s)
    (readFile : String → Option (List UInt8)) (hempty : readFile "" = none) (id : String) :
    (s.studies.get id = none → pdfHandler readFile s.studies id = []) ∧
    (∀ r, s.studies.get id = some r → r.status ≠ StudyStatusComplete →
      pdfHandler readFile s.studies id = []) ∧
    (pdfHandler readFile s.studies id ≠ [] → jobCase s.studies id = some StudyStatusComplete) := by
  have hinv := (Reachable_Inv s hs).1 id
  have hfile : ∀ r, s.studies.get id = some r → r.status ≠ StudyStatusComplete → r.file = "" := by
    intro r hr hst
    have hc := hinv r hr
    unfold Consistent at hc
    cases hs2 : r.status with
    | StudyStatusPending => rw [hs2] at hc; exact hc.2.1
    | StudyStatusComplete => exact absurd hs2 hst
    | StudyStatusFailed => rw [hs2] at hc; exact hc.2.2
  refine ⟨?_, ?_, ?_⟩
  · intro h
    simp [pdfHandler, h]
  · intro r hr hst
    simp [pdfHandler, hr, hfile r hr hst, hempty]
  · intro hne
    cases hg : s.studies.get id with
    | none => simp [pdfHandler, hg] at hne
    | some r =>
      by_cases hst : r.status = StudyStatusComplete
      · simp [jobCase, hg, hst]
      · simp [pdfHandler, hg, hfile r hg hst, hempty] at hne

/-- The artifact query on the pending job `job-1` returns the empty body. -/
theorem pdf_only_when_complete_witness :
    Reachable sysSubmitted ∧ sampleReadFile "" = none ∧
    sysSubmitted.studies.get "job-1" = some pendingRecord ∧
    pdfHandler sampleReadFile sysSubmitted.studies "job-1" = [] :=
  ⟨Reachable_sysSubmitted, by decide, by decide,
    (pdf_only_when_complete sysSubmitted Reachable_sysSubmitted sampleReadFile (by decide)
      "job-1").2.1 pendingRecord (by decide) (by decide)⟩

/-! ## C9: the frame of the worker -/

/-- C9: for every job map, id, prompt and behaviour of the collaborators, the
state `ProcessPrompt(id, prompt)` leaves has the same ids as before and the same
record under every other id; when `id` is in the map it still is. -/
theorem ProcessPrompt_changes_only_id (env : Env) (id prompt : String) (m : Studies) :
    (ProcessPrompt env id prompt m).studies.map Prod.fst = m.map Prod.fst ∧
    (∀ k, (ProcessPrompt env id prompt m).studies.get k = none ↔ m.get k = none) ∧
    (∀ k, k ≠ id → (ProcessPrompt env id prompt m).studies.get k = m.get k) := by
  obtain ⟨h1, h2⟩ := ProcessPrompt_frame env id prompt m
  refine ⟨h1, fun k => ?_, h2⟩
  rw [Studies.get_none_iff, Studies.get_none_iff, h1]

/-! ## C10: the list fragments of the slides -/

/-- C10: the fragment built for a list is the concatenation, in input order, of
`<li>` + item + `</li>` + newline over its items, with the item unchanged
(`escape` is the identity); the empty list gives the empty fragment, n items
give n pieces, and these are the three fragments `generateSlides` substitutes
for `@@CONTEXT@@`, `@@APPROACH@@` and `@@IMPACT@@`. -/
theorem listItems_spec (items : List String) (page : String) (cs : CaseStudy) :
    listItems items = String.join (items.map (fun c => "<li>" ++ c ++ "</li>\n")) ∧
    (∀ c, escape c = c) ∧
    listItems [] = "" ∧
    (items.map (fun c => "<li>" ++ c ++ "</li>\n")).length = items.length ∧
    slidesHtml page cs =
      (((((((((page.replace "@@TITLE@@" cs.Title).replace "@@AUTHOR@@" "AI").replace
        "@@COMPANYA@@" cs.CompanyAName).replace "@@COMPANYADESC@@" cs.CompanyASummary).replace
        "@@COMPANYB@@" cs.CompanyBName).replace "@@COMPANYBDESC@@" cs.CompanyBSummary).replace
        "@@CONTEXT@@" (String.join (cs.Context.map (fun c => "<li>" ++ c ++ "</li>\n")))).replace
        "@@APPROACH@@" (String.join (cs.Approach.map (fun c => "<li>" ++ c ++ "</li>\n")))).replace
        "@@IMPACT@@" (String.join (cs.Impact.map (fun c => "<li>" ++ c ++ "</li>\n")))) := by
  have hl : ∀ xs : List String,
      listItems xs = String.join (xs.map (fun c => "<li>" ++ c ++ "</li>\n")) := by
    intro xs
    simp [listItems, String.join, List.foldl_map, escape]
  refine ⟨hl items, fun _ => rfl, rfl, by simp, ?_⟩
  simp only [slidesHtml, hl, escape]

end CaseStudyGen
